import Mathlib

/-!
Shallow embedding of the physics core of the Atomica repository
(CoulombSolver, NuclearReactor, OrbitalModel, Atom), with theorems
settling the specification claims about it.

Numeric conventions: the C++ code computes in 32-bit `float`; the
embedding uses exact rational arithmetic (`ℚ`) on the same decimal
literals.  All claims settled here are sign / exact-formula /
order-of-magnitude statements whose margins are many orders of
magnitude above `float` rounding error.  C++ `int` is modelled as `ℤ`
(the operations below only ever square atomic numbers ≤ 118 and small
orbital levels, far from 32-bit overflow).
-/

namespace Atomica

/-- Rational 3-vector, the embedding of `glm::vec3`. -/
@[ext] structure Vec3 where
  x : ℚ
  y : ℚ
  z : ℚ
deriving DecidableEq, Repr

namespace Vec3

instance : Zero Vec3 := ⟨⟨0, 0, 0⟩⟩
instance : Add Vec3 := ⟨fun a b => ⟨a.x + b.x, a.y + b.y, a.z + b.z⟩⟩
instance : Neg Vec3 := ⟨fun a => ⟨-a.x, -a.y, -a.z⟩⟩
instance : Sub Vec3 := ⟨fun a b => ⟨a.x - b.x, a.y - b.y, a.z - b.z⟩⟩
instance : SMul ℚ Vec3 := ⟨fun c a => ⟨c * a.x, c * a.y, c * a.z⟩⟩

@[simp] theorem zero_x : (0 : Vec3).x = 0 := rfl
@[simp] theorem zero_y : (0 : Vec3).y = 0 := rfl
@[simp] theorem zero_z : (0 : Vec3).z = 0 := rfl
@[simp] theorem add_x (a b : Vec3) : (a + b).x = a.x + b.x := rfl
@[simp] theorem add_y (a b : Vec3) : (a + b).y = a.y + b.y := rfl
@[simp] theorem add_z (a b : Vec3) : (a + b).z = a.z + b.z := rfl
@[simp] theorem neg_x (a : Vec3) : (-a).x = -a.x := rfl
@[simp] theorem neg_y (a : Vec3) : (-a).y = -a.y := rfl
@[simp] theorem neg_z (a : Vec3) : (-a).z = -a.z := rfl
@[simp] theorem sub_x (a b : Vec3) : (a - b).x = a.x - b.x := rfl
@[simp] theorem sub_y (a b : Vec3) : (a - b).y = a.y - b.y := rfl
@[simp] theorem sub_z (a b : Vec3) : (a - b).z = a.z - b.z := rfl
@[simp] theorem smul_x (c : ℚ) (a : Vec3) : (c • a).x = c * a.x := rfl
@[simp] theorem smul_y (c : ℚ) (a : Vec3) : (c • a).y = c * a.y := rfl
@[simp] theorem smul_z (c : ℚ) (a : Vec3) : (c • a).z = c * a.z := rfl

instance : AddCommGroup Vec3 where
  add_assoc a b c := by ext <;> simp <;> ring
  zero_add a := by ext <;> simp
  add_zero a := by ext <;> simp
  add_comm a b := by ext <;> simp <;> ring
  neg_add_cancel a := by ext <;> simp
  sub_eq_add_neg a b := by ext <;> simp <;> ring
  nsmul := nsmulRec
  zsmul := zsmulRec

instance : Module ℚ Vec3 where
  one_smul a := by ext <;> simp
  mul_smul c d a := by ext <;> simp <;> ring
  smul_zero c := by ext <;> simp
  smul_add c a b := by ext <;> simp <;> ring
  add_smul c d a := by ext <;> simp <;> ring
  zero_smul a := by ext <;> simp

end Vec3

/-! ### Nuclear reactor (NuclearReactor.cpp)

Only the atomic number and mass number of a `Nucleus` are read by the
reactor kernels (the inherited `Particle` position / velocity / mass /
charge fields are never touched), so the embedding keeps just those two
fields. -/

/-- Embedding of the `Nucleus` data read by `NuclearReactor`. -/
structure Nucleus where
  atomicNumber : ℤ
  massNumber : ℤ
deriving DecidableEq, Repr

/-- `AMU_TO_KG = 1.660539e-27f` (NuclearReactor.cpp). -/
def AMU_TO_KG : ℚ := 1.660539e-27

/-- `C_SQUARED = 8.98755179e16f` (NuclearReactor.cpp). -/
def C_SQUARED : ℚ := 8.98755179e16

/-- `J_TO_EV = 6.242e18f` (NuclearReactor.cpp). -/
def J_TO_EV : ℚ := 6.242e18

/-- Embedding of `NuclearReactor::calculateBindingEnergyPerNucleon`.
The C++ body calls `std::pow(A, 2/3)`, `std::pow(A, 1/3)` and
`std::sqrt(A)`; those irrational library functions are abstracted as
the parameters `pow23`, `pow13`, `sqrtQ`, and every theorem below holds
for all of them. -/
def calculateBindingEnergyPerNucleon (pow23 pow13 sqrtQ : ℚ → ℚ)
    (atomicNumber massNumber : ℤ) : ℚ :=
  if massNumber = 0 then 0
  else
    let A : ℚ := (massNumber : ℚ)
    let Z : ℚ := (atomicNumber : ℚ)
    let volumeTerm := 15.7 * A
    let surfaceTerm := 17.8 * pow23 A
    let coulombTerm := 0.71 * Z * (Z - 1) / pow13 A
    let asymmetryTerm := 23.7 * (A - 2 * Z) ^ 2 / A
    let pairingTerm :=
      if massNumber % 2 = 0 ∧ atomicNumber % 2 = 0 then 11.2 / sqrtQ A
      else if massNumber % 2 ≠ 0 ∧ atomicNumber % 2 ≠ 0 then -11.2 / sqrtQ A
      else 0
    let bindingEnergyMeV :=
      volumeTerm - surfaceTerm - coulombTerm - asymmetryTerm + pairingTerm
    let clamped := if bindingEnergyMeV < 0 then 0 else bindingEnergyMeV
    clamped / A * 1000000

/-- Embedding of `NuclearReactor::simulateFission`.  The guard mirrors
`if (Z != 92 || A != 235) return 0;`, and the body mirrors the mass
defect computation with the file's literal isotope masses followed by
the non-positive-defect guard. -/
def simulateFission (nucleus : Nucleus) : ℚ :=
  if nucleus.atomicNumber ≠ 92 ∨ nucleus.massNumber ≠ 235 then 0
  else
    let mass_U235 : ℚ := 235.0439299
    let mass_Ba141 : ℚ := 140.914411
    let mass_Kr92 : ℚ := 91.926156
    let mass_neutron : ℚ := 1.008665
    let initialMass := mass_U235
    let finalMass := mass_Ba141 + mass_Kr92 + 3 * mass_neutron
    let massDefectAMU := initialMass - finalMass
    if massDefectAMU ≤ 0 then 0
    else massDefectAMU * AMU_TO_KG * C_SQUARED * J_TO_EV

/-- Embedding of `NuclearReactor::simulateFusion`: the `isDeuterium` /
`isTritium` either-argument flags, the guard, and the D-T mass defect
path. -/
def simulateFusion (nucleus1 nucleus2 : Nucleus) : ℚ :=
  let isDeuterium :=
    (nucleus1.atomicNumber = 1 ∧ nucleus1.massNumber = 2) ∨
    (nucleus2.atomicNumber = 1 ∧ nucleus2.massNumber = 2)
  let isTritium :=
    (nucleus1.atomicNumber = 1 ∧ nucleus1.massNumber = 3) ∨
    (nucleus2.atomicNumber = 1 ∧ nucleus2.massNumber = 3)
  if ¬(isDeuterium ∧ isTritium) then 0
  else
    let mass_D : ℚ := 2.01410178
    let mass_T : ℚ := 3.01604927
    let mass_He4 : ℚ := 4.00260325
    let mass_neutron : ℚ := 1.008665
    let initialMass := mass_D + mass_T
    let finalMass := mass_He4 + mass_neutron
    let massDefectAMU := initialMass - finalMass
    if massDefectAMU ≤ 0 then 0
    else massDefectAMU * AMU_TO_KG * C_SQUARED * J_TO_EV

/-! ### Coulomb solver (CoulombSolver.cpp)

`calculateForces` reads only each particle's position and charge, so
the `Particle` embedding keeps those two fields.  The Euclidean norm
`glm::length` is irrational over ℚ and is abstracted as the `len`
parameter; every theorem below holds for all `len`. -/

/-- The particle data read by `CoulombSolver::calculateForces`. -/
structure Particle where
  pos : Vec3
  charge : ℚ
deriving DecidableEq, Repr

instance : Inhabited Particle := ⟨⟨0, 0⟩⟩

/-- `COULOMB_CONSTANT = 8.9875e9f` (CoulombSolver.cpp). -/
def COULOMB_CONSTANT : ℚ := 8.9875e9

/-- The `1e-9f` coincident-position epsilon of the pair loop. -/
def coulombEpsilon : ℚ := 1e-9

/-- Per-pair contribution to the force on particle `k`: zero if the
pair is skipped (distance below epsilon) or `k` is not in the pair,
otherwise `±` the Coulomb force `magnitude • direction` of the source
(`+` for the lower index, `−` for the higher). -/
def pairContribution (len : Vec3 → ℚ) (ps : List Particle) (k : ℕ)
    (ij : ℕ × ℕ) : Vec3 :=
  let pI := ps.getD ij.1 default
  let pJ := ps.getD ij.2 default
  let r_vec := pI.pos - pJ.pos
  let distance := len r_vec
  if distance < coulombEpsilon then 0
  else
    let forceMagnitude := COULOMB_CONSTANT * (pI.charge * pJ.charge) / (distance * distance)
    let forceDirection := (1 / distance) • r_vec
    let force := forceMagnitude • forceDirection
    if k = ij.1 then force else if k = ij.2 then -force else 0

/-- One iteration of the inner loop body of
`CoulombSolver::calculateForces`: skip the pair if the distance is
below epsilon, else `forces[i] += force; forces[j] -= force`. -/
def pairStep (len : Vec3 → ℚ) (ps : List Particle) (forces : ℕ → Vec3)
    (ij : ℕ × ℕ) : ℕ → Vec3 :=
  let pI := ps.getD ij.1 default
  let pJ := ps.getD ij.2 default
  let r_vec := pI.pos - pJ.pos
  let distance := len r_vec
  if distance < coulombEpsilon then forces
  else
    let forceMagnitude := COULOMB_CONSTANT * (pI.charge * pJ.charge) / (distance * distance)
    let forceDirection := (1 / distance) • r_vec
    let force := forceMagnitude • forceDirection
    let forces1 := Function.update forces ij.1 (forces ij.1 + force)
    Function.update forces1 ij.2 (forces1 ij.2 - force)

/-- The index pairs `(i, j)`, `i < j < n`, visited by the double loop,
in iteration order. -/
def pairIndices (n : ℕ) : List (ℕ × ℕ) :=
  (List.range n).flatMap fun i =>
    ((List.range n).filter fun j => decide (i < j)).map fun j => (i, j)

/-- Embedding of `CoulombSolver::calculateForces`: fold the pair loop
over a force table that starts at zero everywhere, and read off the
`n` entries.  The particle list is read only — the embedding is pure,
as is the source function. -/
def calculateForces (len : Vec3 → ℚ) (ps : List Particle) : List Vec3 :=
  (List.range ps.length).map
    ((pairIndices ps.length).foldl (pairStep len ps) fun _ => 0)

/-- The net force a visited pair adds to its first index (and subtracts
from its second): zero for a skipped near-coincident pair, otherwise
the Coulomb force along the displacement. -/
def pairForceVec (len : Vec3 → ℚ) (ps : List Particle) (ij : ℕ × ℕ) : Vec3 :=
  let pI := ps.getD ij.1 default
  let pJ := ps.getD ij.2 default
  let r_vec := pI.pos - pJ.pos
  let distance := len r_vec
  if distance < coulombEpsilon then 0
  else
    (COULOMB_CONSTANT * (pI.charge * pJ.charge) / (distance * distance)) •
      ((1 / distance) • r_vec)

/-! ### Orbital model (OrbitalModel.cpp) and Atom (Atom.cpp)

`Electron` carries position, velocity and orbital level (the `Particle`
base fields `mass` and `charge` are never read by the embedded
operations).  `simulateElectronJump` mutates its electron argument, so
its embedding returns the pair (ΔE, updated electron). -/

/-- Embedding of the `Electron` state touched by the embedded operations. -/
@[ext] structure Electron where
  pos : Vec3
  vel : Vec3
  orbitalLevel : ℤ
deriving DecidableEq, Repr

/-- The position of an atom is held by its nucleus; `NucleusP` is the
nucleus as `Atom` sees it (identity plus `Particle` position). -/
@[ext] structure NucleusP where
  atomicNumber : ℤ
  massNumber : ℤ
  pos : Vec3
deriving DecidableEq, Repr

/-- Embedding of `Atom`: atomic identity, the nucleus and the electron list. -/
@[ext] structure Atom where
  atomicNumber : ℤ
  massNumber : ℤ
  nucleus : NucleusP
  electrons : List Electron
deriving DecidableEq, Repr

/-- `RYDBERG_CONSTANT_EV = 13.605693f` (OrbitalModel.h). -/
def RYDBERG_CONSTANT_EV : ℚ := 13.605693

/-- Embedding of `OrbitalModel::calculateOrbitalEnergy`: the
`orbitalLevel <= 0` guard returns 0, otherwise
`-RYDBERG * (float(Z*Z) / (n*n))`. -/
def calculateOrbitalEnergy (atomicNumber orbitalLevel : ℤ) : ℚ :=
  if orbitalLevel ≤ 0 then 0
  else -RYDBERG_CONSTANT_EV *
    ((atomicNumber * atomicNumber : ℤ) / ((orbitalLevel * orbitalLevel : ℤ) : ℚ))

/-- Embedding of `OrbitalModel::simulateElectronJump` (the non-null
path; the embedding has no null pointers).  Returns the energy
difference ΔE together with the electron as it stands after the call. -/
def simulateElectronJump (electron : Electron) (atom : Atom)
    (newOrbitalLevel : ℤ) : ℚ × Electron :=
  let currentOrbitalLevel := electron.orbitalLevel
  if newOrbitalLevel ≤ 0 then (0, electron)
  else
    let initialEnergy := calculateOrbitalEnergy atom.atomicNumber currentOrbitalLevel
    let finalEnergy := calculateOrbitalEnergy atom.atomicNumber newOrbitalLevel
    let deltaE := finalEnergy - initialEnergy
    (deltaE, { electron with orbitalLevel := newOrbitalLevel })

/-- Embedding of `Atom::setPosition`: move the nucleus to the new
position and shift every electron by the same delta. -/
def Atom.setPosition (a : Atom) (position : Vec3) : Atom :=
  let delta := position - a.nucleus.pos
  { a with
    nucleus := { a.nucleus with pos := position },
    electrons := a.electrons.map fun e => { e with pos := e.pos + delta } }

/-! ### Helper lemmas for the Coulomb solver -/

theorem mem_pairIndices {n : ℕ} {p : ℕ × ℕ} (h : p ∈ pairIndices n) :
    p.1 < p.2 ∧ p.2 < n := by
  simp only [pairIndices, List.mem_flatMap, List.mem_map, List.mem_filter,
    List.mem_range, decide_eq_true_eq] at h
  obtain ⟨i, _, j, ⟨hj, hij⟩, rfl⟩ := h
  exact ⟨hij, hj⟩

theorem pairStep_apply (len : Vec3 → ℚ) (ps : List Particle)
    (forces : ℕ → Vec3) (ij : ℕ × ℕ) (hij : ij.1 ≠ ij.2) (k : ℕ) :
    pairStep len ps forces ij k = forces k + pairContribution len ps k ij := by
  simp only [pairStep, pairContribution]
  split
  · simp
  · simp only [Function.update_apply]
    rcases eq_or_ne k ij.2 with rfl | hk2
    · simp [if_neg (Ne.symm hij), hij.symm, sub_eq_add_neg]
    · rcases eq_or_ne k ij.1 with rfl | hk1
      · simp [hk2]
      · simp [hk1, hk2, Ne.symm hk1, Ne.symm hk2]

theorem foldl_pairStep (len : Vec3 → ℚ) (ps : List Particle)
    (l : List (ℕ × ℕ)) (hl : ∀ p ∈ l, p.1 ≠ p.2) (forces : ℕ → Vec3) (k : ℕ) :
    l.foldl (pairStep len ps) forces k =
      forces k + (l.map (pairContribution len ps k)).sum := by
  induction l generalizing forces with
  | nil => simp
  | cons p l ih =>
    simp only [List.foldl_cons, List.map_cons, List.sum_cons]
    rw [ih (fun q hq => hl q (List.mem_cons_of_mem p hq)),
      pairStep_apply len ps forces p (hl p (List.mem_cons_self p l)) k]
    abel

theorem pairContribution_eq (len : Vec3 → ℚ) (ps : List Particle)
    (ij : ℕ × ℕ) (hij : ij.1 ≠ ij.2) (k : ℕ) :
    pairContribution len ps k ij =
      (if k = ij.1 then pairForceVec len ps ij else 0) +
      (if k = ij.2 then -pairForceVec len ps ij else 0) := by
  simp only [pairContribution, pairForceVec]
  split
  · simp
  · rcases eq_or_ne k ij.1 with rfl | hk1
    · simp [hij]
    · rcases eq_or_ne k ij.2 with rfl | hk2
      · simp [hk1]
      · simp [hk1, hk2]

theorem listSum_map_add {α M : Type} [AddCommMonoid M] (l : List α) (f g : α → M) :
    (l.map fun a => f a + g a).sum = (l.map f).sum + (l.map g).sum := by
  induction l with
  | nil => simp
  | cons a l ih => simp only [List.map_cons, List.sum_cons, ih]; abel

theorem listSum_map_swap {α β M : Type} [AddCommMonoid M]
    (l1 : List α) (l2 : List β) (f : α → β → M) :
    (l1.map fun a => (l2.map (f a)).sum).sum =
      (l2.map fun b => (l1.map fun a => f a b).sum).sum := by
  induction l1 with
  | nil => simp
  | cons a l ih =>
    simp only [List.map_cons, List.sum_cons, ih]
    rw [← listSum_map_add]

theorem listSum_single {M : Type} [AddCommMonoid M] (n i : ℕ) (c : M) :
    ((List.range n).map fun k => if k = i then c else 0).sum =
      if i < n then c else 0 := by
  induction n with
  | zero => simp
  | succ n ih =>
    rw [List.range_succ, List.map_append, List.sum_append, ih]
    simp only [List.map_cons, List.map_nil, List.sum_cons, List.sum_nil, add_zero]
    rcases Nat.lt_trichotomy i n with h | h | h
    · rw [if_pos h, if_neg (by omega), if_pos (by omega), add_zero]
    · subst h
      rw [if_neg (lt_irrefl i), if_pos rfl, if_pos (Nat.lt_succ_self i), zero_add]
    · rw [if_neg (by omega), if_neg (by omega), if_neg (by omega), add_zero]

theorem pair_total_contribution_zero (len : Vec3 → ℚ) (ps : List Particle)
    {n : ℕ} {ij : ℕ × ℕ} (h : ij ∈ pairIndices n) :
    ((List.range n).map fun k => pairContribution len ps k ij).sum = 0 := by
  obtain ⟨hlt, hn⟩ := mem_pairIndices h
  have hne : ij.1 ≠ ij.2 := Nat.ne_of_lt hlt
  rw [List.map_congr_left fun k _ => pairContribution_eq len ps ij hne k,
    listSum_map_add, listSum_single, listSum_single]
  simp [Nat.lt_of_lt_of_le hlt (Nat.le_of_lt hn), hn]

theorem calculateForces_entry (len : Vec3 → ℚ) (ps : List Particle)
    {k : ℕ} (hk : k < ps.length) :
    (calculateForces len ps)[k]? =
      some (((pairIndices ps.length).map (pairContribution len ps k)).sum) := by
  have hl : ∀ p ∈ pairIndices ps.length, p.1 ≠ p.2 := fun p hp =>
    Nat.ne_of_lt (mem_pairIndices hp).1
  simp only [calculateForces, List.getElem?_map, List.getElem?_range hk,
    Option.map_some']
  rw [foldl_pairStep len ps _ hl _ k, zero_add]

theorem calculateForces_sum_zero (len : Vec3 → ℚ) (ps : List Particle) :
    (calculateForces len ps).sum = 0 := by
  have hl : ∀ p ∈ pairIndices ps.length, p.1 ≠ p.2 := fun p hp =>
    Nat.ne_of_lt (mem_pairIndices hp).1
  unfold calculateForces
  rw [List.map_congr_left fun k _ => foldl_pairStep len ps _ hl (fun _ => 0) k]
  simp only [zero_add]
  rw [listSum_map_swap]
  rw [List.map_congr_left fun p hp => pair_total_contribution_zero len ps hp]
  simp

/-! ### Claim theorems: nuclear reactor -/

/-- Clamping by an `if x < 0` guard is a `max` with zero. -/
theorem ite_lt_zero_eq_max (x : ℚ) : (if x < 0 then 0 else x) = max 0 x := by
  rcases lt_or_le x 0 with h | h
  · rw [if_pos h, max_eq_left h.le]
  · rw [if_neg (not_lt.2 h), max_eq_right h]

/-- C1: contrary to the claim, `simulateFission` on Z=92, A=235 returns
0, not a positive value of order 10⁸ eV: the initial mass omits the
absorbed neutron, so the mass defect
m(U-235) − [m(Ba-141) + m(Kr-92) + 3·m(n)] is the negative value
−0.8226321 AMU and the non-positive-defect guard fires. -/
theorem simulateFission_U235_eq_zero :
    simulateFission ⟨92, 235⟩ = 0 ∧
    (235.0439299 : ℚ) - (140.914411 + 91.926156 + 3 * 1.008665) = -0.8226321 := by
  constructor
  · norm_num [simulateFission]
  · norm_num

/-- C2: every nucleus other than (Z=92, A=235) makes `simulateFission`
return exactly 0, and every pair other than an unordered
Deuterium/Tritium pair makes `simulateFusion` return exactly 0 (both
embeddings are pure functions, as are the source methods, so no state
is modified). -/
theorem nuclear_unsupported_inputs_zero :
    (∀ n : Nucleus, ¬(n.atomicNumber = 92 ∧ n.massNumber = 235) →
      simulateFission n = 0) ∧
    (∀ n1 n2 : Nucleus,
      ¬((n1.atomicNumber = 1 ∧ n1.massNumber = 2 ∧
         n2.atomicNumber = 1 ∧ n2.massNumber = 3) ∨
        (n1.atomicNumber = 1 ∧ n1.massNumber = 3 ∧
         n2.atomicNumber = 1 ∧ n2.massNumber = 2)) →
      simulateFusion n1 n2 = 0) := by
  constructor
  · rintro ⟨a, m⟩ h
    dsimp only at h
    have hg : a ≠ 92 ∨ m ≠ 235 := by omega
    unfold simulateFission
    dsimp only
    rw [if_pos hg]
  · rintro ⟨a1, m1⟩ ⟨a2, m2⟩ h
    dsimp only at h
    have hc : ¬(((a1 = 1 ∧ m1 = 2) ∨ (a2 = 1 ∧ m2 = 2)) ∧
        ((a1 = 1 ∧ m1 = 3) ∨ (a2 = 1 ∧ m2 = 3))) := by omega
    unfold simulateFusion
    dsimp only
    rw [if_pos hc]

/-- Witness for C2 at the concrete inputs Z=1, A=1 (fission) and a
Deuterium/Deuterium pair (fusion). -/
theorem nuclear_unsupported_inputs_zero_witness :
    simulateFission ⟨1, 1⟩ = 0 ∧ simulateFusion ⟨1, 2⟩ ⟨1, 2⟩ = 0 :=
  ⟨nuclear_unsupported_inputs_zero.1 ⟨1, 1⟩ (by decide),
   nuclear_unsupported_inputs_zero.2 ⟨1, 2⟩ ⟨1, 2⟩ (by decide)⟩

/-- C3: `simulateFusion` on a Deuterium and a Tritium nucleus, in
either argument order, returns the mass defect
[m(D)+m(T)] − [m(He-4)+m(n)] converted via E = mc² and Joules→eV, a
positive value of order 10⁷ eV. -/
theorem simulateFusion_DT_energy :
    ∀ n1 n2 : Nucleus,
      ((n1 = ⟨1, 2⟩ ∧ n2 = ⟨1, 3⟩) ∨ (n1 = ⟨1, 3⟩ ∧ n2 = ⟨1, 2⟩)) →
      simulateFusion n1 n2 =
        ((2.01410178 + 3.01604927) - (4.00260325 + 1.008665)) *
          AMU_TO_KG * C_SQUARED * J_TO_EV ∧
      (10 ^ 7 : ℚ) < simulateFusion n1 n2 ∧ simulateFusion n1 n2 < 10 ^ 8 := by
  rintro n1 n2 (⟨rfl, rfl⟩ | ⟨rfl, rfl⟩) <;>
    norm_num [simulateFusion, AMU_TO_KG, C_SQUARED, J_TO_EV]

/-- Witness for C3 at the concrete Deuterium/Tritium pair. -/
theorem simulateFusion_DT_energy_witness :
    simulateFusion ⟨1, 2⟩ ⟨1, 3⟩ =
      ((2.01410178 + 3.01604927) - (4.00260325 + 1.008665)) *
        AMU_TO_KG * C_SQUARED * J_TO_EV ∧
    (10 ^ 7 : ℚ) < simulateFusion ⟨1, 2⟩ ⟨1, 3⟩ ∧
    simulateFusion ⟨1, 2⟩ ⟨1, 3⟩ < 10 ^ 8 :=
  simulateFusion_DT_energy ⟨1, 2⟩ ⟨1, 3⟩ (Or.inl ⟨rfl, rfl⟩)

/-- C10: `calculateBindingEnergyPerNucleon` returns exactly 0 on mass
number A = 0 (the explicit guard that precedes every division by A),
and on every A ≠ 0 it takes the semi-empirical formula path, whatever
the `std::pow` / `std::sqrt` oracles return. -/
theorem bindingEnergy_zero_mass_guard :
    ∀ (pow23 pow13 sqrtQ : ℚ → ℚ) (Z A : ℤ),
      (A = 0 → calculateBindingEnergyPerNucleon pow23 pow13 sqrtQ Z A = 0) ∧
      (A ≠ 0 → calculateBindingEnergyPerNucleon pow23 pow13 sqrtQ Z A =
        max 0 (15.7 * (A : ℚ) - 17.8 * pow23 (A : ℚ)
          - 0.71 * (Z : ℚ) * ((Z : ℚ) - 1) / pow13 (A : ℚ)
          - 23.7 * ((A : ℚ) - 2 * (Z : ℚ)) ^ 2 / (A : ℚ)
          + (if A % 2 = 0 ∧ Z % 2 = 0 then 11.2 / sqrtQ (A : ℚ)
             else if A % 2 ≠ 0 ∧ Z % 2 ≠ 0 then -11.2 / sqrtQ (A : ℚ)
             else 0)) / (A : ℚ) * 1000000) := by
  intro pow23 pow13 sqrtQ Z A
  constructor
  · rintro rfl
    simp [calculateBindingEnergyPerNucleon]
  · intro hA
    unfold calculateBindingEnergyPerNucleon
    rw [if_neg hA]
    dsimp only
    rw [ite_lt_zero_eq_max]

/-- Witness for C10 at Z=26 with A=0 (guard) and A=56 (formula path,
with constant oracles 14, 3, 7 for A^(2/3), A^(1/3), √A). -/
theorem bindingEnergy_zero_mass_guard_witness :
    calculateBindingEnergyPerNucleon (fun _ => 14) (fun _ => 3) (fun _ => 7) 26 0 = 0 ∧
    calculateBindingEnergyPerNucleon (fun _ => 14) (fun _ => 3) (fun _ => 7) 26 56 =
      1236362500 / 147 := by
  constructor
  · exact (bindingEnergy_zero_mass_guard (fun _ => 14) (fun _ => 3) (fun _ => 7) 26 0).1 rfl
  · rw [(bindingEnergy_zero_mass_guard (fun _ => 14) (fun _ => 3) (fun _ => 7) 26 56).2
      (by norm_num)]
    norm_num

/-! ### Claim theorems: orbital model and atom -/

/-- C6: `calculateOrbitalEnergy(Z, n)` equals −13.605693·Z²/n² eV for
every orbital level n ≥ 1 and every Z, and returns 0 for every n ≤ 0. -/
theorem calculateOrbitalEnergy_formula :
    ∀ Z n : ℤ,
      (1 ≤ n → calculateOrbitalEnergy Z n =
        -(13.605693 : ℚ) * (Z : ℚ) ^ 2 / (n : ℚ) ^ 2) ∧
      (n ≤ 0 → calculateOrbitalEnergy Z n = 0) := by
  intro Z n
  constructor
  · intro h
    unfold calculateOrbitalEnergy
    rw [if_neg (by omega), RYDBERG_CONSTANT_EV]
    push_cast
    ring
  · intro h
    simp [calculateOrbitalEnergy, h]

/-- Witness for C6: ground-state hydrogen −13.605693 eV, the n=2 level
−3.40142325 eV (≈ −3.4014), and the n=0 error path. -/
theorem calculateOrbitalEnergy_formula_witness :
    calculateOrbitalEnergy 1 1 = -13.605693 ∧
    calculateOrbitalEnergy 1 2 = -3.40142325 ∧
    calculateOrbitalEnergy 1 0 = 0 := by
  refine ⟨?_, ?_, (calculateOrbitalEnergy_formula 1 0).2 (by norm_num)⟩
  · rw [(calculateOrbitalEnergy_formula 1 1).1 (by norm_num)]
    norm_num
  · rw [(calculateOrbitalEnergy_formula 1 2).1 (by norm_num)]
    norm_num

/-- C7: for every newLevel ≥ 1, `simulateElectronJump` returns
ΔE = E(Z, newLevel) − E(Z, currentLevel) with Z the atom's atomic
number and currentLevel the electron's level before the call, and sets
the electron's orbital level to newLevel. -/
theorem simulateElectronJump_deltaE :
    ∀ (e : Electron) (a : Atom) (newLevel : ℤ), 1 ≤ newLevel →
      (simulateElectronJump e a newLevel).1 =
        calculateOrbitalEnergy a.atomicNumber newLevel -
          calculateOrbitalEnergy a.atomicNumber e.orbitalLevel ∧
      (simulateElectronJump e a newLevel).2 =
        { e with orbitalLevel := newLevel } := by
  intro e a newLevel h
  unfold simulateElectronJump
  rw [if_neg (by omega)]
  exact ⟨rfl, rfl⟩

/-- Witness for C7: the n=2 → n=1 jump in hydrogen emits
ΔE = −10.20426975 eV (≈ −10.204) and leaves the electron at level 1. -/
theorem simulateElectronJump_deltaE_witness :
    (simulateElectronJump ⟨0, 0, 2⟩ ⟨1, 1, ⟨1, 1, 0⟩, []⟩ 1).1 = -10.20426975 ∧
    (simulateElectronJump ⟨0, 0, 2⟩ ⟨1, 1, ⟨1, 1, 0⟩, []⟩ 1).2 = ⟨0, 0, 1⟩ := by
  obtain ⟨h1, h2⟩ :=
    simulateElectronJump_deltaE ⟨0, 0, 2⟩ ⟨1, 1, ⟨1, 1, 0⟩, []⟩ 1 (by norm_num)
  refine ⟨?_, h2⟩
  rw [h1]
  norm_num [calculateOrbitalEnergy, RYDBERG_CONSTANT_EV]

/-- C8: for every newLevel ≤ 0, `simulateElectronJump` returns the
sentinel 0 and the electron is returned entirely unchanged (position,
velocity and orbital level): the operation is not performed. -/
theorem simulateElectronJump_invalid_noop :
    ∀ (e : Electron) (a : Atom) (newLevel : ℤ), newLevel ≤ 0 →
      simulateElectronJump e a newLevel = (0, e) := by
  intro e a newLevel h
  unfold simulateElectronJump
  rw [if_pos h]

/-- Witness for C8 at newLevel = −1. -/
theorem simulateElectronJump_invalid_noop_witness :
    simulateElectronJump ⟨⟨1, 2, 3⟩, 0, 2⟩ ⟨1, 1, ⟨1, 1, 0⟩, []⟩ (-1) =
      (0, ⟨⟨1, 2, 3⟩, 0, 2⟩) :=
  simulateElectronJump_invalid_noop ⟨⟨1, 2, 3⟩, 0, 2⟩ ⟨1, 1, ⟨1, 1, 0⟩, []⟩ (-1)
    (by norm_num)

/-- C9: `Atom.setPosition p` moves the nucleus to `p` and shifts every
electron by the delta `p − (old nucleus position)`, and a second
`setPosition` with the same `p` changes nothing (the delta is then
zero). -/
theorem setPosition_translation_idempotent :
    ∀ (a : Atom) (p : Vec3),
      (a.setPosition p).nucleus.pos = p ∧
      (a.setPosition p).electrons =
        a.electrons.map (fun e => { e with pos := e.pos + (p - a.nucleus.pos) }) ∧
      (a.setPosition p).setPosition p = a.setPosition p := by
  intro a p
  refine ⟨rfl, rfl, ?_⟩
  unfold Atom.setPosition
  dsimp only
  rw [sub_self]
  have hmap : ∀ l : List Electron,
      (l.map fun e => { e with pos := e.pos + (0 : Vec3) }) = l := by
    intro l
    rw [show (fun e : Electron => { e with pos := e.pos + (0 : Vec3) }) = id
      from funext fun e => by ext <;> simp, List.map_id]
  rw [hmap]

/-! ### Claim theorems: Coulomb solver -/

/-- Sample length oracle and particle pair used to instantiate the
universally quantified Coulomb theorems at concrete inputs. -/
def lenX : Vec3 → ℚ := fun v => v.x

/-- Two sample particles at distance 3 along the x-axis (as `lenX`
measures it), with charges 2 and 5. -/
def sampleParticles : List Particle := [⟨⟨3, 0, 0⟩, 2⟩, ⟨⟨0, 0, 0⟩, 5⟩]

/-- C4: for every particle list and every length oracle, each visited
pair's contribution to its lower-index particle is the exact negation
of its contribution to the higher-index one (Newton's third law as the
code implements it: one force vector, added to `i` and subtracted from
`j`), and consequently the sum of all returned force vectors over the
whole system is the zero vector. -/
theorem coulomb_antisymmetry_sum_zero :
    ∀ (len : Vec3 → ℚ) (ps : List Particle),
      (∀ ij : ℕ × ℕ, ij.1 ≠ ij.2 →
        pairContribution len ps ij.1 ij = -pairContribution len ps ij.2 ij) ∧
      (calculateForces len ps).sum = 0 := by
  intro len ps
  refine ⟨fun ij hij => ?_, calculateForces_sum_zero len ps⟩
  rw [pairContribution_eq len ps ij hij ij.1, pairContribution_eq len ps ij hij ij.2]
  simp [hij, Ne.symm hij]

/-- Witness for C4 on the sample two-particle system. -/
theorem coulomb_antisymmetry_sum_zero_witness :
    pairContribution lenX sampleParticles 0 (0, 1) =
      -pairContribution lenX sampleParticles 1 (0, 1) ∧
    (calculateForces lenX sampleParticles).sum = 0 :=
  ⟨(coulomb_antisymmetry_sum_zero lenX sampleParticles).1 (0, 1) (by decide),
   (coulomb_antisymmetry_sum_zero lenX sampleParticles).2⟩

/-- C5: `calculateForces` returns one force per input particle, and the
entry for particle `k` is the sum, over the unordered pairs `(i, j)`
with `i < j`, of that pair's contribution: zero when the distance is
below the 1e-9 epsilon (pair skipped) or `k` is outside the pair, and
otherwise the force of magnitude k_e·q_i·q_j/d² along the direction
r/d, added for `k = i` and subtracted for `k = j`.  The accumulation
starts from zero vectors and the particle list is never written. -/
theorem calculateForces_pairwise_sum :
    ∀ (len : Vec3 → ℚ) (ps : List Particle),
      (calculateForces len ps).length = ps.length ∧
      ∀ k, k < ps.length →
        (calculateForces len ps)[k]? =
          some (((pairIndices ps.length).map (pairContribution len ps k)).sum) := by
  intro len ps
  exact ⟨by simp [calculateForces], fun k hk => calculateForces_entry len ps hk⟩

/-- Witness for C5 on the sample two-particle system. -/
theorem calculateForces_pairwise_sum_witness :
    (calculateForces lenX sampleParticles).length = 2 ∧
    (calculateForces lenX sampleParticles)[0]? =
      some (((pairIndices sampleParticles.length).map
        (pairContribution lenX sampleParticles 0)).sum) :=
  ⟨(calculateForces_pairwise_sum lenX sampleParticles).1,
   (calculateForces_pairwise_sum lenX sampleParticles).2 0 (by decide)⟩

end Atomica
